import Mathlib

set_option maxHeartbeats 1000000

/-!
Shallow embedding of the LoBA data pipeline
(src/utils/.ipynb_checkpoints/dataset-checkpoint.py): the batch collator
collate_fn with its conversation label aligner, HybridDataset, ValDataset,
TumorDataset and ValTumorDataset. External collaborators (tokenizer, CLIP
image processor, SAM resize transform, conversation template rendering and
the COCO RLE decoder) are opaque services and appear as function-valued
inputs of the embedded operations, exactly where the source calls them.
-/

/-- IGNORE_INDEX from the llava constants: the label value excluded from
loss computation. -/
def IGNORE_INDEX : Int := -100

/-- DEFAULT_IMAGE_TOKEN from the llava constants. -/
def DEFAULT_IMAGE_TOKEN : String := "<image>"

/-- Does the char list start with the (separator) prefix? -/
def charsStartWith : List Char → List Char → Bool
  | _, [] => true
  | [], _ :: _ => false
  | c :: cs, d :: ds => c == d && charsStartWith cs ds

/-- Python str.split(sep) for a nonempty separator, on char lists: scan
left to right, cut at every occurrence of sep. The fuel argument makes
the recursion structural; fuel = length of the scanned list suffices,
since every step consumes at least one character. -/
def pySplitAux (sep : List Char) :
    Nat → List Char → List Char → List (List Char)
  | _, [], acc => [acc]
  | 0, rest, acc => [acc ++ rest]
  | fuel + 1, c :: cs, acc =>
      if charsStartWith (c :: cs) sep then
        acc :: pySplitAux sep fuel ((c :: cs).drop sep.length) []
      else pySplitAux sep fuel cs (acc ++ [c])

/-- Python str.split(sep) (nonempty sep), the splitting primitive used by
the label aligner. -/
def pySplit (s sep : String) : List String :=
  (pySplitAux sep.toList s.toList.length s.toList []).map String.mk

/-- Python substring test `needle in hay` for a nonempty needle, expressed
through the split count. -/
def pyContains (hay needle : String) : Bool :=
  (pySplit hay needle).length > 1

/-- A Python value appearing in a dataset sample tuple. Tensors and arrays
are modelled as nested lists of integers; a sample tuple is a
`List PyObj`. -/
inductive PyObj where
  | pyNone : PyObj
  | pyBool : Bool → PyObj
  | pyStr : String → PyObj
  | pyDims : Nat × Nat → PyObj
  | pyMat : List (List Int) → PyObj
  | pyArr3 : List (List (List Int)) → PyObj
  | pyStrList : List String → PyObj
  deriving DecidableEq

/-- Python list repetition `l * n` (concatenation of n copies). -/
def pyListMul (l : List α) : Nat → List α
  | 0 => []
  | n + 1 => l ++ pyListMul l n

/-- Python list indexing `l[i]` with negative-index wrap-around; an
out-of-range access returns the default (the embedding never exercises
that case under the hypotheses of the theorems below). -/
def pyGet (l : List α) (i : Int) (d : α) : α :=
  if 0 ≤ i then l.getD i.toNat d else l.getD (l.length - (-i).toNat) d

/-- `m[:, :n]` on a 2-D tensor modelled as a list of rows. -/
def truncMat (n : Nat) (m : List (List α)) : List (List α) :=
  m.map (fun r => r.take n)

/-- The final truncation step of collate_fn (source lines 146-154): when
the first sample's inference flag is False and the padded width
input_ids.shape[1] (here seqLen) exceeds tokenizer.model_max_length,
input_ids, targets and attention_masks are each cut to the first
model_max_length columns; otherwise all three are returned unchanged. -/
def truncateStep (inference0 : Bool) (modelMaxLength seqLen : Nat)
    (ids tgts : List (List Int)) (ams : List (List Bool)) :
    List (List Int) × List (List Int) × List (List Bool) :=
  if inference0 = false then
    if seqLen > modelMaxLength then
      (truncMat modelMaxLength ids, truncMat modelMaxLength tgts,
        truncMat modelMaxLength ams)
    else (ids, tgts, ams)
  else (ids, tgts, ams)

/-- The accumulation loop of collate_fn (source lines 45-71) restricted to
the fields the offset bookkeeping touches: conversation_list is extended
with each sample's conversations, cnt grows by their number, and
offset_list records cnt after each sample. -/
def collateGatherAux (cl : List String) (ol : List Nat) (cnt : Nat) :
    List (List String) → List String × List Nat × Nat
  | [] => (cl, ol, cnt)
  | convs :: rest =>
      collateGatherAux (cl ++ convs) (ol ++ [cnt + convs.length])
        (cnt + convs.length) rest

/-- collate_fn conversation/offset accumulation over a batch, starting
from conversation_list = [], offset_list = [0], cnt = 0. -/
def collateGather (batchConvs : List (List String)) :
    List String × List Nat × Nat :=
  collateGatherAux [] [0] 0 batchConvs

/-- The offset list returned by collate_fn (source line 170). -/
def collateOffsets (batchConvs : List (List String)) : List Nat :=
  (collateGather batchConvs).2.1

/-- The flattened conversation list built by collate_fn. -/
def collateConversationList (batchConvs : List (List String)) :
    List String :=
  (collateGather batchConvs).1

/-- HybridDataset state: exactly the fields its __getitem__ and __len__
read. Sub-datasets are modelled as accessor functions from an index to a
sample tuple. -/
structure HybridDatasetM where
  samples_per_epoch : Nat
  sample_rate_raw : List ℚ
  all_datasets : List (Nat → List PyObj)

/-- self.sample_rate = sample_rate / sample_rate.sum()
(source lines 209-210). -/
def HybridDatasetM.sample_rate (d : HybridDatasetM) : List ℚ :=
  d.sample_rate_raw.map (fun w => w / d.sample_rate_raw.sum)

/-- HybridDataset.__len__ (source lines 279-280). -/
def HybridDatasetM.lengthOf (d : HybridDatasetM) : Nat :=
  d.samples_per_epoch

/-- HybridDataset.__getitem__ (source lines 282-286). The weighted draw
np.random.choice(range(len(self.datasets)), p=self.sample_rate) is
modelled by the oracle argument ind; the chosen sub-dataset is queried at
index 0 (`data[0]`) and inference = False is appended. The idx argument
is read nowhere, as in the source. -/
def HybridDatasetM.getitem (d : HybridDatasetM) (ind idx : Nat) :
    List PyObj :=
  let data := d.all_datasets.getD ind (fun _ => [])
  data 0 ++ [PyObj.pyBool false]

/-- The default sample_rate argument of HybridDataset.__init__
(source line 197). -/
def defaultSampleRate : List ℚ := [9, 3, 3, 1]

/-- np.sum(m, axis=2) followed by astype(np.uint8)
(source lines 459-462): the channel values at each pixel are summed and
the sum is reduced mod 256 by the uint8 cast. -/
def sumAxis2Uint8 (m : List (List (List Int))) : List (List Int) :=
  m.map (fun row => row.map (fun px => px.sum % 256))

/-- The dense mask the spec describes for C4: the pixelwise logical OR of
the decoded sub-masks, 1 where any channel is nonzero and 0 elsewhere. -/
def orMaskSpec (m : List (List (List Int))) : List (List Int) :=
  m.map (fun row => row.map (fun px =>
    if px.any (fun v => v != 0) then (1 : Int) else 0))

/-- The opaque tokenizer services used by collate_fn:
tokenizer_image_token(s, tokenizer) is tokImg, tokenizer(s).input_ids is
tok, with the pad id and model_max_length. -/
structure TokenizerModel where
  tokImg : String → List Int
  tok : String → List Int
  padId : Int
  modelMaxLength : Nat

/-- Python slice assignment target[start:stop] = v on a 1-D tensor. -/
def setRange (l : List Int) (start stop : Nat) (v : Int) : List Int :=
  l.enum.map (fun p => if start ≤ p.1 ∧ p.1 < stop then v else p.2)

/-- The per-round loop of the conversation label aligner
(source lines 120-140). It breaks at the first empty round; a nonempty
round must split on sep into exactly two parts (the assert at line 128),
otherwise the model returns none (AssertionError). For each processed
round the instruction span [curLen, curLen + instruction_len) is
overwritten with IGNORE_INDEX and the cursor advances by the round's
token count. -/
def processRounds (tokF : String → List Int) (sep : String) :
    List String → Nat → List Int → Option (Nat × List Int)
  | [], curLen, target => some (curLen, target)
  | rou :: rest, curLen, target =>
      if rou = "" then some (curLen, target)
      else
        match pySplit rou sep with
        | [p0, _p1] =>
            let instruction := p0 ++ sep
            let round_len := (tokF rou).length
            let instruction_len := (tokF instruction).length - 2
            let target1 :=
              setRange target curLen (curLen + instruction_len) IGNORE_INDEX
            processRounds tokF sep rest (curLen + round_len) target1
        | _ => none

/-- One conversation's pass of the label aligner (source lines 114-141):
choose the image-aware tokenizer when the image token occurs in the
conversation, split the conversation on the round separator sep2, mask
position 0, run the round loop from cursor 1, and mask everything from
the final cursor on. Returns the final cursor and the labels row. -/
def alignConversation (tm : TokenizerModel) (sep2 sep : String)
    (conversation : String) (target : List Int) :
    Option (Nat × List Int) :=
  let tokF := if pyContains conversation DEFAULT_IMAGE_TOKEN then tm.tokImg
    else tm.tok
  let rounds := pySplit conversation sep2
  let target0 := setRange target 0 1 IGNORE_INDEX
  match processRounds tokF sep rounds 1 target0 with
  | some r => some (r.1, setRange r.2 r.1 r.2.length IGNORE_INDEX)
  | none => none

/-- total_len (source line 115): the count of entries of the row that
differ from the pad id. -/
def totalLenOf (padId : Int) (target : List Int) : Nat :=
  target.countP (fun x => x != padId)

/-- The guarded assertion at source lines 143-144: the equality
cur_len == total_len is checked only when cur_len < model_max_length;
the value true means no AssertionError is raised. -/
def alignerCheck (modelMaxLength curLen totLen : Nat) : Bool :=
  if curLen < modelMaxLength then curLen == totLen else true

/-- Sum of the per-round token counts over the rounds the aligner loop
actually processes (all rounds before the first empty one). -/
def roundTokLenSum (tokF : String → List Int) (rounds : List String) :
    Nat :=
  ((rounds.takeWhile (fun r => r != "")).map
    (fun r => (tokF r).length)).sum

/-- One backing slice of the tumor datasets: its path and the flattened
values of the sibling mask .npy array. -/
structure SliceData where
  path : String
  maskVals : List Int
  deriving DecidableEq

/-- Sorted insertion on Int. -/
def insortInt (x : Int) : List Int → List Int
  | [] => [x]
  | y :: ys => if x ≤ y then x :: y :: ys else y :: insortInt x ys

/-- Insertion sort on Int. -/
def sortInts : List Int → List Int
  | [] => []
  | x :: xs => insortInt x (sortInts xs)

/-- np.unique: the sorted distinct values of an array. -/
def npUnique (l : List Int) : List Int :=
  sortInts l.dedup

/-- classes_per_slice[classes_per_slice != 0].tolist()
(source line 541): the distinct mask values with class 0 removed. -/
def tumorClassesOf (m : List Int) : List Int :=
  (npUnique m).filter (fun v => v != 0)

/-- The filter loop inside the just_using_tumor_imgs branch of
TumorDataset.__init__ / ValTumorDataset.__init__ (source lines 533-541):
slices whose mask has a value over zero are kept, and for each kept slice
the nonzero distinct mask values are recorded. -/
def tumorFilterLoop : List SliceData → List SliceData × List (List Int)
  | [] => ([], [])
  | s :: rest =>
      let r := tumorFilterLoop rest
      if s.maskVals.any (fun v => decide (0 < v)) then
        (s :: r.1, tumorClassesOf s.maskVals :: r.2)
      else r

/-- The tail of TumorDataset.__init__ / ValTumorDataset.__init__
(source lines 531-542 and 683-694): the local slices_with_tumors is bound
only inside the just_using_tumor_imgs branch, while
`self.all_slices = slices_with_tumors` runs unconditionally; reading the
unbound local raises NameError, modelled as the error branch. -/
def tumorInit (just_using_tumor_imgs : Bool) (slices : List SliceData) :
    Except String (List SliceData × List (List Int)) :=
  let slices_with_tumors : Option (List SliceData × List (List Int)) :=
    if just_using_tumor_imgs then some (tumorFilterLoop slices) else none
  match slices_with_tumors with
  | some r => Except.ok r
  | none => Except.error "NameError: name slices_with_tumors is not defined"

/-- The configuration flags TumorDataset/ValTumorDataset.__getitem__
read. -/
structure TumorCfg where
  merging_classes : Bool
  just_use_pos_cases : Bool
  num_classes : Nat
  deriving DecidableEq

/-- Oracle for the random draws of the tumor getitems: choiceIdx models
random.choice (an index into the drawn-from list), randint models
np.random.randint. -/
structure Rng where
  choiceIdx : Nat
  randint : Nat
  deriving DecidableEq

/-- The selected_class computation shared by TumorDataset.__getitem__ and
ValTumorDataset.__getitem__ (source lines 590-601 and 738-749):
merging_classes gives 1; otherwise just_use_pos_cases draws a class from
the slice's available classes with random.choice and subtracts 1, and the
remaining branch draws np.random.randint(0, num_classes). -/
def selectClass (cfg : TumorCfg) (classes : List Int) (rng : Rng) : Int :=
  if cfg.merging_classes then 1
  else if cfg.just_use_pos_cases then
    pyGet classes (Int.ofNat (rng.choiceIdx % classes.length)) 0 - 1
  else Int.ofNat (rng.randint % cfg.num_classes)

/-- self.sentences of TumorDataset when merging_classes is true
(source line 548). -/
def tumorSentencesMerged : List String :=
  ["The whole tumor includes all visible tumor regions, including the actively growing enhanced tumor, the surrounding non-enhancing tumor tissue, and any peritumoral edema. Is there any region that indicates the presence of a tumor?. Provide the segmentation mask."]

/-- self.sentences of TumorDataset when merging_classes is false, and of
ValTumorDataset always (source lines 550-554 and 699-703). -/
def tumorSentences : List String :=
  ["The enhanced tumor forms the central, actively growing portion of the tumor. Is there any enhanced tumor region? Provide the segmentation mask.",
    "Non-enhanced tumor including necrotic and cystic areas, often surrounds the enhanced tumor, forming the inner boundary of the tumor mass. Is there any Non-enhanced tumor region? Provide the segmentation mask.",
    "Edema forms the outermost region, extending into surrounding brain tissues as a more diffuse, swollen area with fluid accumulation. Is there any edema region? Provide the segmentation mask."]

/-- np.where(mask > 0, 1, 0). -/
def maskWhereGt0 (m : List (List Int)) : List (List Int) :=
  m.map (fun row => row.map (fun v => if 0 < v then (1 : Int) else 0))

/-- np.where(mask == c, 1, 0). -/
def maskWhereEq (c : Int) (m : List (List Int)) : List (List Int) :=
  m.map (fun row => row.map (fun v => if v = c then (1 : Int) else 0))

/-- The per-slice inputs of the tumor getitems that come from disk or
from the opaque image services: the slice path, the loaded mask array,
the caption lines, the slice's available classes, and the already
preprocessed image tensors and resize dims. -/
structure TumorItemInputs where
  slicePath : String
  maskArr : List (List Int)
  captions : List String
  classesAvail : List Int
  imageFinal : List (List Int)
  imageClip : List (List Int)
  resize : Nat × Nat

/-- TumorDataset.__getitem__ (source lines 571-639). The conversation
template rendering conv.get_prompt after appending (question, answer) is
the opaque render; answer0 is ANSWER_LIST[0]. The single built
conversation is repeated three times (`conversations * 3`) and the
selected binary mask is stacked three times (np.stack([mask] * 3)). -/
def tumorGetitem (cfg : TumorCfg) (inp : TumorItemInputs)
    (render : String → String → String) (answer0 : String) (rng : Rng) :
    List PyObj :=
  let selected_class := selectClass cfg inp.classesAvail rng
  let question :=
    if cfg.merging_classes then
      pyGet tumorSentencesMerged (selected_class - 1) ""
    else pyGet tumorSentences selected_class ""
  let questions := [DEFAULT_IMAGE_TOKEN ++ "\n" ++ question]
  let maskSel :=
    if cfg.merging_classes then maskWhereGt0 inp.maskArr
    else maskWhereEq (selected_class + 1) inp.maskArr
  let conversations := [render (pyGet questions 0 "") answer0]
  let conversations3 := pyListMul conversations 3
  let masks := [maskSel, maskSel, maskSel]
  let label := List.replicate maskSel.length
    (List.replicate (maskSel.headD []).length (255 : Int))
  [PyObj.pyStr inp.slicePath, PyObj.pyMat inp.imageFinal,
    PyObj.pyMat inp.imageClip, PyObj.pyStrList conversations3,
    PyObj.pyArr3 masks, PyObj.pyMat label, PyObj.pyDims inp.resize,
    PyObj.pyStrList questions, PyObj.pyNone, PyObj.pyBool false]

/-- ValTumorDataset.__getitem__ (source lines 720-787). Identical to
TumorDataset.__getitem__ except: the merging_classes branch indexes the
three-sentence list (ValTumorDataset never defines the merged single
sentence), the conversation list is NOT repeated
(`conversations = conversations`, source line 773), and inference is
True. The mask is still stacked three times. -/
def valTumorGetitem (cfg : TumorCfg) (inp : TumorItemInputs)
    (render : String → String → String) (answer0 : String) (rng : Rng) :
    List PyObj :=
  let selected_class := selectClass cfg inp.classesAvail rng
  let question :=
    if cfg.merging_classes then pyGet tumorSentences (selected_class - 1) ""
    else pyGet tumorSentences selected_class ""
  let questions := [DEFAULT_IMAGE_TOKEN ++ "\n" ++ question]
  let maskSel :=
    if cfg.merging_classes then maskWhereGt0 inp.maskArr
    else maskWhereEq (selected_class + 1) inp.maskArr
  let conversations := [render (pyGet questions 0 "") answer0]
  let masks := [maskSel, maskSel, maskSel]
  let label := List.replicate maskSel.length
    (List.replicate (maskSel.headD []).length (255 : Int))
  [PyObj.pyStr inp.slicePath, PyObj.pyMat inp.imageFinal,
    PyObj.pyMat inp.imageClip, PyObj.pyStrList conversations,
    PyObj.pyArr3 masks, PyObj.pyMat label, PyObj.pyDims inp.resize,
    PyObj.pyStrList questions, PyObj.pyNone, PyObj.pyBool true]

/-- One record of img2refs[image_id] as read by ValDataset.__getitem__:
its sentence strings and its ann_id link. -/
structure RefRecord where
  sentences : List String
  ann_id : Nat

/-- The ref iteration of ValDataset.__getitem__ (source lines 385-393):
for each ref and each of its sentences, the stripped lower-cased sentence
text is appended to sents. -/
def valSents (refs : List RefRecord) : List String :=
  (refs.map (fun r => r.sentences.map (fun s => s.trim.toLower))).flatten

/-- The matching ann_id appended per sentence (source line 390). -/
def valAnnIds (refs : List RefRecord) : List Nat :=
  (refs.map (fun r => r.sentences.map (fun _ => r.ann_id))).flatten

/-- The user message of one validation conversation
(source lines 411-426). -/
def valUserMsg (is_sentence : Bool) (text : String) : String :=
  if is_sentence then
    DEFAULT_IMAGE_TOKEN ++ "\n " ++ text ++
      " Please output segmentation mask."
  else
    DEFAULT_IMAGE_TOKEN ++ "\n What is " ++ text ++
      " in this image? Please output segmentation mask."

/-- The conversation-building while loop of ValDataset.__getitem__
(source lines 405-428): exactly one rendered prompt per sampled sentence,
with the constant assistant reply. -/
def valConversations (render : String → String → String)
    (is_sentence : Bool) (sents : List String) : List String :=
  sents.map (fun s => render (valUserMsg is_sentence s.trim) "[SEG].")

/-- The branch-dependent backing data of ValDataset.__getitem__: either
the referring-segmentation records with the opaque per-ann_id RLE decode
(an (H, W, C) binary array; the zero-annotation branch of the source
yields a zeros (H, W, 1) array through the same path), or the
reasoning-segmentation json mask with its sentences. -/
inductive ValData where
  | referSeg (refs : List RefRecord)
      (annDecoded : Nat → List (List (List Int)))
  | reasonSeg (maskJson : List (List Int)) (sents : List String)
      (is_sentence : Bool)

/-- ValDataset.__getitem__ (source lines 370-483) with the opaque image
services as inputs. The rng oracle mirrors the ambient random state; the
body never reads it, since the source makes no random call here. -/
def valGetitem (vd : ValData) (render : String → String → String)
    (imagePath : String) (imageFinal imageClip : List (List Int))
    (resize : Nat × Nat) (rng : Rng) : List PyObj :=
  match vd with
  | ValData.referSeg refs annDecoded =>
      let sents := valSents refs
      let annIds := valAnnIds refs
      let conversations := valConversations render false sents
      let masks := annIds.map (fun aid => sumAxis2Uint8 (annDecoded aid))
      let label := List.replicate (masks.headD []).length
        (List.replicate ((masks.headD []).headD []).length (255 : Int))
      [PyObj.pyStr imagePath, PyObj.pyMat imageFinal,
        PyObj.pyMat imageClip, PyObj.pyStrList conversations,
        PyObj.pyArr3 masks, PyObj.pyMat label, PyObj.pyDims resize,
        PyObj.pyNone, PyObj.pyNone, PyObj.pyBool true]
  | ValData.reasonSeg maskJson sents is_sentence =>
      let sampled := [sents.headD ""]
      let conversations := valConversations render is_sentence sampled
      let masks := [maskJson]
      let label := List.replicate (masks.headD []).length
        (List.replicate ((masks.headD []).headD []).length (255 : Int))
      [PyObj.pyStr imagePath, PyObj.pyMat imageFinal,
        PyObj.pyMat imageClip, PyObj.pyStrList conversations,
        PyObj.pyArr3 masks, PyObj.pyMat label, PyObj.pyDims resize,
        PyObj.pyNone, PyObj.pyNone, PyObj.pyBool true]

/-- The conversations field (tuple position 3) of a sample tuple. -/
def sampleConvCount (t : List PyObj) : Nat :=
  match t.getD 3 PyObj.pyNone with
  | PyObj.pyStrList l => l.length
  | _ => 0

/-- The leading dimension of the stacked mask field (tuple position 4) of
a sample tuple. -/
def sampleMaskDim0 (t : List PyObj) : Nat :=
  match t.getD 4 PyObj.pyNone with
  | PyObj.pyArr3 m => m.length
  | _ => 0

/-- The per-sample destructuring of collate_fn (source lines 45-57):
exactly eleven names ending with inference and text_only; a tuple of any
other arity raises ValueError, modelled as none. -/
def collateUnpackSample (t : List PyObj) :
    Option (PyObj × PyObj × PyObj × PyObj × PyObj × PyObj × PyObj ×
      PyObj × PyObj × PyObj × PyObj) :=
  match t with
  | [a, b, c, d, e, f, g, h, i, j, k] =>
      some (a, b, c, d, e, f, g, h, i, j, k)
  | _ => none

/-- C2: the collate_fn truncation step. An inference-first batch is
returned untruncated even when the padded width exceeds
model_max_length; a training batch (inference flag false) whose padded
width exceeds model_max_length has input_ids, labels and attention_masks
cut to rows of exactly model_max_length entries; in every other case all
three tensors are unchanged. -/
theorem collate_truncation_c2 (inference0 : Bool) (maxLen seqLen : Nat)
    (ids tgts : List (List Int)) (ams : List (List Bool))
    (hids : ∀ r ∈ ids, r.length = seqLen)
    (htgts : ∀ r ∈ tgts, r.length = seqLen)
    (hams : ∀ r ∈ ams, r.length = seqLen) :
    (inference0 = true →
      truncateStep inference0 maxLen seqLen ids tgts ams =
        (ids, tgts, ams))
    ∧ (inference0 = false → maxLen < seqLen →
        truncateStep inference0 maxLen seqLen ids tgts ams =
          (truncMat maxLen ids, truncMat maxLen tgts,
            truncMat maxLen ams)
        ∧ (∀ r ∈ (truncateStep inference0 maxLen seqLen ids tgts ams).1,
            r.length = maxLen)
        ∧ (∀ r ∈
            (truncateStep inference0 maxLen seqLen ids tgts ams).2.1,
            r.length = maxLen)
        ∧ (∀ r ∈
            (truncateStep inference0 maxLen seqLen ids tgts ams).2.2,
            r.length = maxLen))
    ∧ (inference0 = false → seqLen ≤ maxLen →
        truncateStep inference0 maxLen seqLen ids tgts ams =
          (ids, tgts, ams)) := by
  refine ⟨?_, ?_, ?_⟩
  · intro h1
    simp [truncateStep, h1]
  · intro h1 h2
    have heq : truncateStep inference0 maxLen seqLen ids tgts ams =
        (truncMat maxLen ids, truncMat maxLen tgts, truncMat maxLen ams) := by
      simp [truncateStep, h1, h2]
    refine ⟨heq, ?_, ?_, ?_⟩ <;> rw [heq]
    · intro r hr
      simp only [truncMat, List.mem_map] at hr
      obtain ⟨r0, hr0, rfl⟩ := hr
      rw [List.length_take, hids r0 hr0]
      omega
    · intro r hr
      simp only [truncMat, List.mem_map] at hr
      obtain ⟨r0, hr0, rfl⟩ := hr
      rw [List.length_take, htgts r0 hr0]
      omega
    · intro r hr
      simp only [truncMat, List.mem_map] at hr
      obtain ⟨r0, hr0, rfl⟩ := hr
      rw [List.length_take, hams r0 hr0]
      omega
  · intro h1 h2
    simp [truncateStep, h1]
    omega

/-- Concrete instantiation of collate_truncation_c2: a training batch of
width 3 against a maximum of 2 is cut to width 2. -/
theorem collate_truncation_c2_witness :
    truncateStep false 2 3 [[1, 2, 3]] [[4, 5, 6]] [[true, true, true]] =
      ([[1, 2]], [[4, 5]], [[true, true]]) := by
  have h := collate_truncation_c2 false 2 3 [[1, 2, 3]] [[4, 5, 6]]
    [[true, true, true]] (by decide) (by decide) (by decide)
  rw [(h.2.1 rfl (by decide)).1]
  decide

/-- C5: HybridDataset. __getitem__ ignores its index argument, returns
the oracle-chosen sub-dataset's accessor applied at 0 with a constant
inference = False flag appended, __len__ is the fixed samples_per_epoch
count, and with the default weights [9, 3, 3, 1] the stored sample_rate
is the normalized vector [9/16, 3/16, 3/16, 1/16], which sums to 1. -/
theorem hybrid_dispatch_c5 (d : HybridDatasetM)
    (hdef : d.sample_rate_raw = defaultSampleRate) :
    (∀ ind idx idx', d.getitem ind idx = d.getitem ind idx')
    ∧ (∀ ind idx, d.getitem ind idx =
        (d.all_datasets.getD ind (fun _ => [])) 0 ++ [PyObj.pyBool false])
    ∧ d.lengthOf = d.samples_per_epoch
    ∧ d.sample_rate = [9/16, 3/16, 3/16, 1/16]
    ∧ d.sample_rate.sum = 1 := by
  have hr : d.sample_rate = [9/16, 3/16, 3/16, 1/16] := by
    simp only [HybridDatasetM.sample_rate, hdef, defaultSampleRate]
    norm_num
  refine ⟨fun _ _ _ => rfl, fun _ _ => rfl, rfl, hr, ?_⟩
  rw [hr]
  norm_num [List.sum_cons]

/-- Concrete instantiation of hybrid_dispatch_c5 at the default
weights. -/
theorem hybrid_dispatch_c5_witness :
    (HybridDatasetM.mk 80000 defaultSampleRate []).sample_rate.sum = 1 :=
  (hybrid_dispatch_c5 (HybridDatasetM.mk 80000 defaultSampleRate [])
    rfl).2.2.2.2

/-- C9: every sample tuple built by TumorDataset.__getitem__,
ValTumorDataset.__getitem__ and ValDataset.__getitem__ has ten fields
ending with the inference flag — not the eleven fields (with a trailing
text_only flag) that collate_fn's per-sample destructuring reads — so
the eleven-name unpack in collate_fn fails (ValueError) on each of
them. -/
theorem sample_tuple_arity_c9 (cfg : TumorCfg) (inp : TumorItemInputs)
    (render : String → String → String) (answer0 : String) (rng : Rng)
    (vd : ValData) (imagePath : String)
    (imageFinal imageClip : List (List Int)) (resize : Nat × Nat) :
    (tumorGetitem cfg inp render answer0 rng).length = 10
    ∧ (valTumorGetitem cfg inp render answer0 rng).length = 10
    ∧ (valGetitem vd render imagePath imageFinal imageClip resize
        rng).length = 10
    ∧ collateUnpackSample (tumorGetitem cfg inp render answer0 rng) =
        none
    ∧ collateUnpackSample (valTumorGetitem cfg inp render answer0 rng) =
        none
    ∧ collateUnpackSample
        (valGetitem vd render imagePath imageFinal imageClip resize
          rng) = none := by
  cases vd <;> exact ⟨rfl, rfl, rfl, rfl, rfl, rfl⟩

/-- C10: with just_using_tumor_imgs = False the construction tail of
TumorDataset and ValTumorDataset always raises NameError: the
unconditional assignment self.all_slices = slices_with_tumors reads a
local bound only inside the skipped branch, so this configuration never
produces a usable dataset object. -/
theorem tumor_init_name_error_c10 (slices : List SliceData) :
    tumorInit false slices =
      Except.error
        "NameError: name slices_with_tumors is not defined" := rfl

/-- One (sentence, ann_id) pair is appended per ref sentence, so the two
flattened lists of ValDataset.__getitem__ have equal length. -/
theorem valSents_annIds_length (refs : List RefRecord) :
    (valSents refs).length = (valAnnIds refs).length := by
  simp only [valSents, valAnnIds, List.length_flatten, List.map_map]
  congr 1
  apply List.map_congr_left
  intro r _
  simp

/-- C3 counterexample: a concrete ValTumorDataset sample whose stacked
mask has leading dimension 3 while its conversation list has exactly one
string, so the two counts differ. -/
theorem mask_conv_c3_counterexample :
    sampleMaskDim0 (valTumorGetitem ⟨true, true, 3⟩
        ⟨"p", [[1]], ["c"], [1], [[0]], [[0]], (1, 1)⟩
        (fun q a => q ++ a) "[SEG]." ⟨0, 0⟩) ≠
      sampleConvCount (valTumorGetitem ⟨true, true, 3⟩
        ⟨"p", [[1]], ["c"], [1], [[0]], [[0]], (1, 1)⟩
        (fun q a => q ++ a) "[SEG]." ⟨0, 0⟩) := by
  decide

/-- C3 amended: the stacked mask leading dimension equals the number of
conversation strings for every TumorDataset.__getitem__ sample (both are
3) and every ValDataset.__getitem__ sample (one mask per sampled
sentence); for ValTumorDataset.__getitem__ the mask is stacked 3-fold
while exactly one conversation string is built, so the leading dimension
is 3 and the conversation count is 1. -/
theorem mask_conv_dims_c3_amended (cfg : TumorCfg)
    (inp : TumorItemInputs) (render : String → String → String)
    (answer0 : String) (rng : Rng) (vd : ValData) (imagePath : String)
    (imageFinal imageClip : List (List Int)) (resize : Nat × Nat) :
    sampleMaskDim0 (tumorGetitem cfg inp render answer0 rng) =
      sampleConvCount (tumorGetitem cfg inp render answer0 rng)
    ∧ sampleMaskDim0
        (valGetitem vd render imagePath imageFinal imageClip resize
          rng) =
      sampleConvCount
        (valGetitem vd render imagePath imageFinal imageClip resize rng)
    ∧ sampleMaskDim0 (valTumorGetitem cfg inp render answer0 rng) = 3
    ∧ sampleConvCount (valTumorGetitem cfg inp render answer0 rng) =
        1 := by
  refine ⟨rfl, ?_, rfl, rfl⟩
  cases vd with
  | referSeg refs annDecoded =>
      show ((valAnnIds refs).map _).length =
        (valConversations render false (valSents refs)).length
      simp [valConversations, valSents_annIds_length]
  | reasonSeg maskJson sents is_sentence => rfl

/-- C4 counterexample: two overlapping binary sub-masks at one pixel.
np.sum along the channel axis followed by the uint8 cast yields value 2
there, while the pixelwise logical OR yields 1, so the produced dense
mask is not the OR of the sub-masks. -/
theorem mask_union_c4_counterexample :
    sumAxis2Uint8 [[[1, 1]]] ≠ orMaskSpec [[[1, 1]]] := by decide

/-- At one pixel: for binary channel values with at most one nonzero
channel, the channel sum (mod 256) is the logical OR. -/
theorem pixel_sum_eq_or (px : List Int)
    (hb : ∀ v ∈ px, v = 0 ∨ v = 1)
    (hd : px.countP (fun v => v != 0) ≤ 1) :
    px.sum % 256 = if px.any (fun v => v != 0) then (1 : Int) else 0 := by
  induction px with
  | nil => simp
  | cons x xs ih =>
      rcases hb x (List.mem_cons_self x xs) with h0 | h1
      · subst h0
        have hb' : ∀ v ∈ xs, v = 0 ∨ v = 1 := fun v hv =>
          hb v (List.mem_cons_of_mem _ hv)
        have hd' : xs.countP (fun v => v != 0) ≤ 1 := by
          simpa [List.countP_cons] using hd
        simpa [List.any_cons] using ih hb' hd'
      · subst h1
        have hcnt : xs.countP (fun v => v != 0) = 0 := by
          have h := hd
          rw [List.countP_cons] at h
          have h1 : ((1 : Int) != 0) = true := by decide
          rw [h1] at h
          simp only [if_true] at h
          omega
        have hzero : ∀ v ∈ xs, v = 0 := by
          intro v hv
          have hne := (List.countP_eq_zero.mp hcnt) v hv
          simpa using hne
        have hsum : xs.sum = 0 := List.sum_eq_zero hzero
        norm_num [List.any_cons, hsum]

/-- C4 amended: the source sums the decoded channel axis with no clip
(the uint8 cast only wraps mod 256), so the dense mask is the pixelwise
channel sum; it equals the pixelwise logical OR of the decoded binary
sub-masks precisely in the non-overlapping case, i.e. whenever at most
one channel is nonzero at every pixel. -/
theorem mask_union_c4_amended (m : List (List (List Int)))
    (hb : ∀ row ∈ m, ∀ px ∈ row, ∀ v ∈ px, v = 0 ∨ v = 1)
    (hd : ∀ row ∈ m, ∀ px ∈ row, px.countP (fun v => v != 0) ≤ 1) :
    sumAxis2Uint8 m = orMaskSpec m := by
  simp only [sumAxis2Uint8, orMaskSpec]
  apply List.map_congr_left
  intro row hrow
  apply List.map_congr_left
  intro px hpx
  exact pixel_sum_eq_or px (hb row hrow px hpx) (hd row hrow px hpx)

/-- Concrete instantiation of mask_union_c4_amended: two non-overlapping
sub-masks over a 1 x 2 image. -/
theorem mask_union_c4_amended_witness :
    sumAxis2Uint8 [[[1, 0], [0, 1]]] = orMaskSpec [[[1, 0], [0, 1]]] :=
  mask_union_c4_amended [[[1, 0], [0, 1]]] (by decide) (by decide)

/-- C8 counterexample: with merging_classes = False and
just_use_pos_cases = True, ValTumorDataset.__getitem__ draws the class
with random.choice; on the same index and backing slice, two different
draws produce different samples (different question and mask). -/
theorem val_determinism_c8_counterexample :
    valTumorGetitem ⟨false, true, 3⟩
        ⟨"p", [[1, 2]], ["c0", "c1", "c2"], [1, 2], [[0]], [[0]], (1, 1)⟩
        (fun q a => q ++ a) "[SEG]." ⟨0, 0⟩ ≠
      valTumorGetitem ⟨false, true, 3⟩
        ⟨"p", [[1, 2]], ["c0", "c1", "c2"], [1, 2], [[0]], [[0]], (1, 1)⟩
        (fun q a => q ++ a) "[SEG]." ⟨1, 0⟩ := by
  decide

/-- C8 amended: ValDataset.__getitem__ reads nothing from the random
state, and ValTumorDataset.__getitem__ is independent of the random
draws whenever merging_classes is true (the shipped default); only the
merging_classes = False configuration depends on the random class
choice. -/
theorem val_determinism_c8_amended (vd : ValData)
    (render : String → String → String) (imagePath : String)
    (imageFinal imageClip : List (List Int)) (resize : Nat × Nat)
    (cfg : TumorCfg) (inp : TumorItemInputs) (answer0 : String)
    (rng rng' : Rng) (hmerge : cfg.merging_classes = true) :
    valGetitem vd render imagePath imageFinal imageClip resize rng =
      valGetitem vd render imagePath imageFinal imageClip resize rng'
    ∧ valTumorGetitem cfg inp render answer0 rng =
      valTumorGetitem cfg inp render answer0 rng' := by
  constructor
  · rfl
  · simp [valTumorGetitem, selectClass, hmerge]

/-- Concrete instantiation of val_determinism_c8_amended: with
merging_classes = True two distinct draws give the same sample. -/
theorem val_determinism_c8_amended_witness :
    valTumorGetitem ⟨true, true, 3⟩
        ⟨"p", [[1, 2]], ["c0", "c1", "c2"], [1, 2], [[0]], [[0]], (1, 1)⟩
        (fun q a => q ++ a) "[SEG]." ⟨0, 0⟩ =
      valTumorGetitem ⟨true, true, 3⟩
        ⟨"p", [[1, 2]], ["c0", "c1", "c2"], [1, 2], [[0]], [[0]], (1, 1)⟩
        (fun q a => q ++ a) "[SEG]." ⟨1, 5⟩ :=
  (val_determinism_c8_amended (ValData.reasonSeg [[0]] ["s"] false)
    (fun q a => q ++ a) "p" [[0]] [[0]] (1, 1) ⟨true, true, 3⟩
    ⟨"p", [[1, 2]], ["c0", "c1", "c2"], [1, 2], [[0]], [[0]], (1, 1)⟩
    "[SEG]." ⟨0, 0⟩ ⟨1, 5⟩ rfl).2

/-- Membership in a sorted insertion. -/
theorem mem_insortInt (a x : Int) (l : List Int) :
    a ∈ insortInt x l ↔ a = x ∨ a ∈ l := by
  induction l with
  | nil => simp [insortInt]
  | cons y ys ih =>
      simp only [insortInt]
      by_cases h : x ≤ y
      · simp [h, List.mem_cons]
      · simp only [if_neg h, List.mem_cons, ih]
        tauto

/-- Sorting preserves membership. -/
theorem mem_sortInts (a : Int) (l : List Int) :
    a ∈ sortInts l ↔ a ∈ l := by
  induction l with
  | nil => simp [sortInts]
  | cons x xs ih => simp [sortInts, mem_insortInt, ih]

/-- The recorded class list of a slice holds exactly the nonzero values
occurring in its mask. -/
theorem mem_tumorClassesOf (x : Int) (m : List Int) :
    x ∈ tumorClassesOf m ↔ x ∈ m ∧ x ≠ 0 := by
  simp [tumorClassesOf, npUnique, mem_sortInts, List.mem_dedup,
    List.mem_filter]

/-- The construction filter loop keeps exactly the slices with a
positive mask value, in order, with their class lists alongside. -/
theorem tumorFilterLoop_eq (slices : List SliceData) :
    tumorFilterLoop slices =
      (slices.filter (fun s => s.maskVals.any (fun v => decide (0 < v))),
        (slices.filter
            (fun s => s.maskVals.any (fun v => decide (0 < v)))).map
          (fun s => tumorClassesOf s.maskVals)) := by
  induction slices with
  | nil => rfl
  | cons s rest ih =>
      simp only [tumorFilterLoop, ih, List.filter_cons]
      cases h : s.maskVals.any (fun v => decide (0 < v)) <;> simp [h]

/-- C7: with just_using_tumor_imgs = True, TumorDataset and
ValTumorDataset construction succeeds and the accessible slice list is
exactly the sublist of backing slices whose mask has at least one value
greater than zero, and each retained slice's recorded class list holds a
value x iff x occurs in that slice's mask and x is not class 0. -/
theorem tumor_filter_c7 (slices : List SliceData) :
    tumorInit true slices =
      Except.ok
        (slices.filter
            (fun s => s.maskVals.any (fun v => decide (0 < v))),
          (slices.filter
              (fun s => s.maskVals.any (fun v => decide (0 < v)))).map
            (fun s => tumorClassesOf s.maskVals))
    ∧ ∀ s : SliceData, ∀ x : Int,
        x ∈ tumorClassesOf s.maskVals ↔ x ∈ s.maskVals ∧ x ≠ 0 := by
  refine ⟨?_, fun s x => mem_tumorClassesOf x s.maskVals⟩
  simp [tumorInit, tumorFilterLoop_eq]

/-- Closed form of the collate_fn accumulation loop. -/
theorem collateGatherAux_eq (convs : List (List String))
    (cl : List String) (ol : List Nat) (cnt : Nat) :
    collateGatherAux cl ol cnt convs =
      (cl ++ convs.flatten,
        ol ++ (List.range convs.length).map
          (fun i => cnt + ((convs.take (i + 1)).map List.length).sum),
        cnt + (convs.map List.length).sum) := by
  induction convs generalizing cl ol cnt with
  | nil => simp [collateGatherAux]
  | cons c rest ih =>
      rw [collateGatherAux, ih]
      refine congrArg₂ Prod.mk ?_ (congrArg₂ Prod.mk ?_ ?_)
      · simp
      · rw [List.length_cons, List.range_succ_eq_map, List.map_cons,
          List.map_map, List.append_assoc, List.singleton_append]
        congr 1
        simp [Function.comp, List.take_succ_cons, Nat.add_assoc]
      · simp [Nat.add_assoc]

/-- The offset list in closed form. -/
theorem collateOffsets_eq (convs : List (List String)) :
    collateOffsets convs =
      0 :: (List.range convs.length).map
        (fun i => ((convs.take (i + 1)).map List.length).sum) := by
  simp [collateOffsets, collateGather, collateGatherAux_eq]

/-- The flattened conversation list in closed form. -/
theorem collateConversationList_eq (convs : List (List String)) :
    collateConversationList convs = convs.flatten := by
  simp [collateConversationList, collateGather, collateGatherAux_eq]

/-- Entry i of the offset list is the total conversation count of the
first i samples. -/
theorem collateOffsets_getD (convs : List (List String)) (i : Nat)
    (h : i ≤ convs.length) :
    (collateOffsets convs).getD i 0 =
      ((convs.take i).map List.length).sum := by
  rw [collateOffsets_eq]
  cases i with
  | zero => simp
  | succ j =>
      rw [List.getD_cons_succ]
      have hj : j < ((List.range convs.length).map
          (fun i => ((convs.take (i + 1)).map List.length).sum)).length := by
        simpa using Nat.lt_of_succ_le h
      rw [List.getD_eq_getElem _ _ hj]
      simp

/-- C6: for a batch of N samples the offset list has length N + 1,
starts at 0, each successive difference is the conversation count of the
corresponding sample, the last entry is the flattened conversation
list's total length, and slicing the flattened list at
[offset i, offset (i + 1)) recovers sample i's conversation group. -/
theorem collate_offsets_c6 (batchConvs : List (List String)) :
    (collateOffsets batchConvs).length = batchConvs.length + 1
    ∧ (collateOffsets batchConvs).getD 0 0 = 0
    ∧ (∀ i, i < batchConvs.length →
        (collateOffsets batchConvs).getD (i + 1) 0 -
            (collateOffsets batchConvs).getD i 0 =
          (batchConvs.getD i []).length)
    ∧ (collateOffsets batchConvs).getD batchConvs.length 0 =
        (collateConversationList batchConvs).length
    ∧ (∀ i, i < batchConvs.length →
        ((collateConversationList batchConvs).drop
              ((collateOffsets batchConvs).getD i 0)).take
            ((collateOffsets batchConvs).getD (i + 1) 0 -
              (collateOffsets batchConvs).getD i 0) =
          batchConvs.getD i []) := by
  have hdiff : ∀ i, i < batchConvs.length →
      (collateOffsets batchConvs).getD (i + 1) 0 -
          (collateOffsets batchConvs).getD i 0 =
        (batchConvs.getD i []).length := by
    intro i hi
    rw [collateOffsets_getD _ _ (by omega),
      collateOffsets_getD _ _ (by omega), List.map_take, List.map_take]
    have hlen : i < (batchConvs.map List.length).length := by simpa using hi
    rw [List.sum_take_succ _ i hlen]
    have hg : (batchConvs.map List.length)[i] =
        (batchConvs.getD i []).length := by
      rw [List.getD_eq_getElem _ _ hi]
      simp
    rw [hg]
    omega
  refine ⟨?_, ?_, hdiff, ?_, ?_⟩
  · rw [collateOffsets_eq]
    simp
  · rw [collateOffsets_eq]
    rfl
  · rw [collateOffsets_getD _ _ (le_refl _), collateConversationList_eq,
      List.take_length, List.length_flatten]
  · intro i hi
    rw [collateConversationList_eq, hdiff i hi,
      collateOffsets_getD _ _ (by omega)]
    have hsplit : batchConvs.flatten =
        (batchConvs.take i).flatten ++ (batchConvs.drop i).flatten := by
      rw [← List.flatten_append, List.take_append_drop]
    rw [hsplit]
    have hlen : ((batchConvs.take i).map List.length).sum =
        ((batchConvs.take i).flatten).length :=
      (List.length_flatten _).symm
    rw [hlen, List.drop_left]
    have hdropi : batchConvs.drop i =
        batchConvs.getD i [] :: batchConvs.drop (i + 1) := by
      rw [List.drop_eq_getElem_cons hi]
      congr 1
      exact (List.getD_eq_getElem _ _ hi).symm
    rw [hdropi, List.flatten_cons]
    exact List.take_left _ _

/-- Concrete instantiation of collate_offsets_c6 on a two-sample batch:
the first difference is sample 0's conversation count and the slice at
[offset 0, offset 1) recovers its conversation group. -/
theorem collate_offsets_c6_witness :
    (collateOffsets [["a", "b"], ["c"]]).getD 1 0 -
        (collateOffsets [["a", "b"], ["c"]]).getD 0 0 =
      ([["a", "b"], ["c"]].getD 0 []).length ∧
    ((collateConversationList [["a", "b"], ["c"]]).drop
          ((collateOffsets [["a", "b"], ["c"]]).getD 0 0)).take
        ((collateOffsets [["a", "b"], ["c"]]).getD 1 0 -
          (collateOffsets [["a", "b"], ["c"]]).getD 0 0) =
      [["a", "b"], ["c"]].getD 0 [] :=
  ⟨(collate_offsets_c6 [["a", "b"], ["c"]]).2.2.1 0 (by decide),
    (collate_offsets_c6 [["a", "b"], ["c"]]).2.2.2.2 0 (by decide)⟩

/-- The round loop advances the cursor by exactly the summed token
counts of the rounds before the first empty round, whenever it ends
without an AssertionError. -/
theorem processRounds_cursor (tokF : String → List Int) (sep : String)
    (rounds : List String) (c : Nat) (t : List Int) (r : Nat × List Int)
    (h : processRounds tokF sep rounds c t = some r) :
    r.1 = c + roundTokLenSum tokF rounds := by
  induction rounds generalizing c t with
  | nil =>
      simp only [processRounds, Option.some.injEq] at h
      simp [roundTokLenSum, ← h]
  | cons rou rest ih =>
      by_cases hr : rou = ""
      · subst hr
        simp only [processRounds, if_true, Option.some.injEq] at h
        simp [roundTokLenSum, List.takeWhile_cons, ← h]
      · simp only [processRounds, if_neg hr] at h
        split at h
        · have hc := ih _ _ h
          rw [hc]
          simp [roundTokLenSum, List.takeWhile_cons, hr]
          omega
        · exact absurd h (by simp)

/-- C1: the label aligner invariant of collate_fn. Under the tokenizer
contract — the image-aware tokenization of the whole conversation is one
leading token plus the sum of the per-round tokenizations over the
processed rounds, and it never emits the pad id — the cursor after the
round loop equals the non-pad count total_len of the padded row; when
the tokenized length is below model_max_length the guarded assertion is
reached and passes, and when the tokenized length reaches or exceeds
model_max_length the guard condition fails and the check is skipped. -/
theorem aligner_cursor_c1 (tm : TokenizerModel) (sep2 sep : String)
    (conversation : String) (padLen : Nat) (curLen : Nat)
    (labels : List Int)
    (hImg : pyContains conversation DEFAULT_IMAGE_TOKEN = true)
    (hAdd : (tm.tokImg conversation).length =
      1 + roundTokLenSum tm.tokImg (pySplit conversation sep2))
    (hNoPad : tm.padId ∉ tm.tokImg conversation)
    (hrun : alignConversation tm sep2 sep conversation
        (tm.tokImg conversation ++ List.replicate padLen tm.padId) =
      some (curLen, labels)) :
    curLen = totalLenOf tm.padId
        (tm.tokImg conversation ++ List.replicate padLen tm.padId)
    ∧ ((tm.tokImg conversation).length < tm.modelMaxLength →
        curLen < tm.modelMaxLength ∧
        alignerCheck tm.modelMaxLength curLen
          (totalLenOf tm.padId
            (tm.tokImg conversation ++
              List.replicate padLen tm.padId)) = true)
    ∧ (tm.modelMaxLength ≤ (tm.tokImg conversation).length →
        ¬ curLen < tm.modelMaxLength) := by
  have htot : totalLenOf tm.padId
      (tm.tokImg conversation ++ List.replicate padLen tm.padId) =
      (tm.tokImg conversation).length := by
    unfold totalLenOf
    rw [List.countP_append]
    have h1 : (tm.tokImg conversation).countP
        (fun x => x != tm.padId) = (tm.tokImg conversation).length := by
      rw [List.countP_eq_length]
      intro a ha
      simp only [bne_iff_ne, ne_eq]
      intro hEq
      exact hNoPad (hEq ▸ ha)
    have h2 : (List.replicate padLen tm.padId).countP
        (fun x => x != tm.padId) = 0 := by
      rw [List.countP_eq_zero]
      intro a ha
      rw [List.eq_of_mem_replicate ha]
      simp
    rw [h1, h2]
    omega
  have hrun' : (match processRounds tm.tokImg sep
        (pySplit conversation sep2) 1
        (setRange (tm.tokImg conversation ++
          List.replicate padLen tm.padId) 0 1 IGNORE_INDEX) with
      | some r => some (r.1, setRange r.2 r.1 r.2.length IGNORE_INDEX)
      | none => none) = some (curLen, labels) := by
    simpa [alignConversation, hImg] using hrun
  have hcur : curLen = (tm.tokImg conversation).length := by
    cases hpr : processRounds tm.tokImg sep (pySplit conversation sep2) 1
        (setRange (tm.tokImg conversation ++
          List.replicate padLen tm.padId) 0 1 IGNORE_INDEX) with
    | none => rw [hpr] at hrun'; exact absurd hrun' (by simp)
    | some r =>
        rw [hpr] at hrun'
        simp only [Option.some.injEq, Prod.mk.injEq] at hrun'
        have hc := processRounds_cursor tm.tokImg sep
          (pySplit conversation sep2) 1 _ r hpr
        rw [← hrun'.1, hc, hAdd]
  refine ⟨by rw [htot, hcur], ?_, ?_⟩
  · intro hlt
    have hlt' : curLen < tm.modelMaxLength := by rw [hcur]; exact hlt
    refine ⟨hlt', ?_⟩
    simp [alignerCheck, hlt', htot, hcur]
  · intro hge
    rw [hcur]
    omega

/-- A concrete image-aware tokenizer satisfying the contract of
aligner_cursor_c1 on one single-round conversation. -/
def toyTokImg (s : String) : List Int :=
  if s = "U: <image> hi ASSISTANT: ok</s>" then [1, 2, 3, 4, 5]
  else if s = "U: <image> hi ASSISTANT: ok" then [1, 2, 3, 4]
  else if s = "U: <image> hi ASSISTANT: " then [1, 2, 3]
  else [9]

/-- The tokenizer model around toyTokImg, with pad id 0 and
model_max_length 100. -/
def toyTm : TokenizerModel :=
  { tokImg := toyTokImg, tok := toyTokImg, padId := 0,
    modelMaxLength := 100 }

/-- Concrete instantiation of aligner_cursor_c1: on the toy conversation
the aligner cursor 5 equals the non-pad count of the padded row. -/
theorem aligner_cursor_c1_witness :
    (5 : Nat) = totalLenOf toyTm.padId
        (toyTm.tokImg "U: <image> hi ASSISTANT: ok</s>" ++
          List.replicate 2 toyTm.padId) :=
  (aligner_cursor_c1 toyTm "</s>" "ASSISTANT: "
    "U: <image> hi ASSISTANT: ok</s>" 2 5
    [-100, -100, 3, 4, 5, -100, -100]
    (by decide) (by decide) (by decide) (by decide)).1
